import Mathlib

/-!
# Verification of the polylitics market-scoring engine

Shallow embedding of the scoring library (`src/lib/polymarket/model.ts`,
`src/lib/polymarket/advanced-scoring.ts`, and the deadline utilities) in
Lean 4, with theorems settling the frozen claims about it.

Modelling conventions:
* JavaScript numbers are modelled as exact rationals (`ℚ`); the values that
  the code derives from `Math.sqrt` (standard deviation, z-score, volatility)
  are modelled in `ℝ` via `Real.sqrt`, since an exact square root leaves `ℚ`.
* `Date` values are modelled by their millisecond timestamp (`ℚ`); the
  ambient clock `new Date()` becomes an explicit `now` parameter.
* `x ?? d` becomes `Option.getD`, `T | null` becomes `Option T`.
* TypeScript string-literal unions ("YES" | "NO", tiers, sizes, momentum)
  are modelled as the same string values.
* Rationale strings that interpolate numbers through `toFixed` are modelled
  by inductive values carrying the same numbers (decimal rendering of a
  real number is immaterial to every claim and is not modelled).
-/

/-- JavaScript `String.prototype.includes`: substring test. -/
def strIncludes (s sub : String) : Bool :=
  s.toList.tails.any fun t => sub.toList.isPrefixOf t

/-- JavaScript `String.prototype.toLowerCase` (ASCII, the only characters the
scoring code compares). -/
def toLowerCase (s : String) : String :=
  String.mk (s.toList.map Char.toLower)

/-! ## deadline.ts : time helpers -/

/-- The value `timeRemainingDays` computes for a present end date:
`ms > 0 ? ms / (1000*60*60*24) : 0` with `ms = end - now`. -/
def daysOf (now e : ℚ) : ℚ :=
  if 0 < e - now then (e - now) / 86400000 else 0

/-- `timeRemainingDays(endDate)` from deadline.ts; `new Date()` is the
explicit `now`.  A missing end date gives `null`. -/
def timeRemainingDays (now : ℚ) (endDate : Option ℚ) : Option ℚ :=
  endDate.map (daysOf now)

/-- `deadlineUrgency(days)` from deadline.ts. -/
def deadlineUrgency (days : Option ℚ) : String :=
  match days with
  | none => "unknown"
  | some d =>
    if d < 7 then "critical"
    else if d < 30 then "urgent"
    else if d < 90 then "moderate"
    else "distant"

/-! ## model.ts : deadline delay model -/

/-- `clamp01(n)` from model.ts: `Math.max(0, Math.min(1, n))`. -/
def clamp01 (n : ℚ) : ℚ := max 0 (min 1 n)

/-- Input record of `deadlineDelayModel`. -/
structure ModelArgs where
  marketProb : ℚ
  endDate : Option ℚ
  liquidity : Option ℚ
  category : Option String

/-- `ModelOutput` from model.ts. -/
structure ModelOutput where
  modelProb : ℚ
  delayRisk : ℚ
  rationale : List String
  confidence : ℚ

/-- The time-bucket contribution to `delayPenalty` in `deadlineDelayModel`. -/
def timePenalty (days : ℚ) : ℚ :=
  if days < 7 then 0.25
  else if days < 30 then 0.18
  else if days < 90 then 0.10
  else if days < 180 then 0.04
  else 0.02

/-- The confidence value set by the time bucket in `deadlineDelayModel`. -/
def timeConfidence (days : ℚ) : ℚ :=
  if days < 7 then 0.9
  else if days < 30 then 0.85
  else if days < 90 then 0.75
  else if days < 180 then 0.65
  else 0.5

/-- The rationale string pushed by the time bucket in `deadlineDelayModel`. -/
def timeRationale (days : ℚ) : String :=
  if days < 7 then "< 7 days: Very high delay risk for unfinished items."
  else if days < 30 then "< 30 days: High delay risk; insufficient buffer."
  else if days < 90 then "< 90 days: Moderate delay risk."
  else if days < 180 then "< 6 months: Light delay risk."
  else "> 6 months: Minimal delay risk from timeline."

/-- The liquidity contribution to `delayPenalty` in `deadlineDelayModel`. -/
def liqPenalty (liq : ℚ) : ℚ :=
  if liq < 5000 then 0.08
  else if liq < 20000 then 0.04
  else 0

/-- The factor the liquidity branch multiplies into `confidence`. -/
def liqConfFactor (liq : ℚ) : ℚ :=
  if liq < 5000 then 0.9
  else if liq < 20000 then 0.95
  else 1

/-- The rationale string pushed by the liquidity branch. -/
def liqRationale (liq : ℚ) : String :=
  if liq < 5000 then "Low liquidity: Price may be noisy/optimistic."
  else if liq < 20000 then "Medium liquidity: Some noise expected."
  else "High liquidity: Price likely more accurate."

/-- The category contribution to `delayPenalty`; `cat` is the lowercased
category string, as at the call site. -/
def catPenalty (cat : String) : ℚ :=
  if strIncludes cat "crypto" || strIncludes cat "protocol" then 0.05
  else if strIncludes cat "regulation" || strIncludes cat "legal" then 0.08
  else if strIncludes cat "politics" then 0.03
  else 0

/-- The rationale string (if any) pushed by the category branch. -/
def catRationale (cat : String) : List String :=
  if strIncludes cat "crypto" || strIncludes cat "protocol" then
    ["Crypto/protocol: Historical delays common."]
  else if strIncludes cat "regulation" || strIncludes cat "legal" then
    ["Regulatory/legal: Procedural delays expected."]
  else if strIncludes cat "politics" then
    ["Politics: Moderate unpredictability."]
  else []

/-- The total `delayPenalty` accumulated by `deadlineDelayModel` once a
deadline is known: time bucket + liquidity bucket + category bucket. -/
def delayPenaltyOf (days liq : ℚ) (cat : String) : ℚ :=
  timePenalty days + liqPenalty liq + catPenalty cat

/-- `deadlineDelayModel(args)` from model.ts. -/
def deadlineDelayModel (now : ℚ) (args : ModelArgs) : ModelOutput :=
  let marketProb := clamp01 args.marketProb
  match timeRemainingDays now args.endDate with
  | none =>
    { modelProb := marketProb
      delayRisk := 0
      confidence := 0.3
      rationale := ["No deadline available; cannot assess delay risk."] }
  | some days =>
    let liq := args.liquidity.getD 0
    let cat := toLowerCase (args.category.getD "")
    let delayPenalty := delayPenaltyOf days liq cat
    { modelProb := clamp01 (marketProb - delayPenalty)
      delayRisk := clamp01 (delayPenalty / 0.30)
      confidence := timeConfidence days * liqConfFactor liq
      rationale := [timeRationale days, liqRationale liq] ++ catRationale cat }

/-- `attentionScore(args)` from model.ts. -/
def attentionScore (volume24h priceChange24h liquidity : Option ℚ) : ℚ :=
  let volume := volume24h.getD 0
  let priceChange := |priceChange24h.getD 0|
  let liq := liquidity.getD 0
  let volumeScore := min (volume / 100000) 1 * 0.4
  let priceScore := min (priceChange / 0.2) 1 * 0.4
  let liquidityScore := min (liq / 50000) 1 * 0.2
  volumeScore + priceScore + liquidityScore

/-! ## advanced-scoring.ts : Kelly criterion -/

/-- Input record of `calculateKelly`. -/
structure KellyArgs where
  modelProb : ℚ
  marketPrice : ℚ
  direction : String

/-- `calculateKelly(args)` from advanced-scoring.ts. -/
def calculateKelly (args : KellyArgs) : ℚ :=
  let p := if args.direction = "YES" then args.modelProb else 1 - args.modelProb
  let price := if args.direction = "YES" then args.marketPrice else 1 - args.marketPrice
  if price ≤ 0 || 1 ≤ price then 0
  else
    let b := (1 - price) / price
    let q := 1 - p
    let kelly := (b * p - q) / b
    max 0 (min 0.25 kelly)

/-! ## model.ts : volume spike model -/

/-- Input record of `volumeSpikeScore`. -/
structure VolArgs where
  volume24h : Option ℚ
  volumeHistory : List ℚ

/-- The rationale string of `volumeSpikeScore`, with its interpolated
numbers carried as values. -/
inductive VolRationale
  | insufficientHistory
  | noVariance
  | stats (current mean : ℚ) (z : ℝ) (isSpike : Bool)

/-- Output record of `volumeSpikeScore`. -/
structure VolOutput where
  volumeZScore : ℝ
  isSpike : Bool
  rationale : VolRationale

/-- `history.reduce((a,b) => a+b, 0) / history.length`. -/
def meanOf (l : List ℚ) : ℚ := l.sum / l.length

/-- `history.reduce((sum,v) => sum + (v-mean)^2, 0) / history.length`
(population variance). -/
def varOf (l : List ℚ) : ℚ :=
  (l.map fun v => (v - meanOf l) ^ 2).sum / l.length

/-- `Math.sqrt(variance)` (population standard deviation). -/
noncomputable def stdOf (l : List ℚ) : ℝ := Real.sqrt (varOf l : ℝ)

/-- `volumeSpikeScore(args)` from model.ts. -/
noncomputable def volumeSpikeScore (args : VolArgs) : VolOutput :=
  let current := args.volume24h.getD 0
  let history := args.volumeHistory.filter fun v => decide (0 < v)
  if history.length < 3 then
    ⟨0, false, .insufficientHistory⟩
  else
    let mean := meanOf history
    let stdDev := stdOf history
    if stdDev = 0 then
      ⟨0, false, .noVariance⟩
    else
      let zScore : ℝ := ((current : ℝ) - (mean : ℝ)) / stdDev
      let isSpike := decide ((2.0 : ℝ) < zScore)
      ⟨zScore, isSpike, .stats current mean zScore isSpike⟩

/-! ## advanced-scoring.ts : momentum, signals, composite score -/

/-- `detectMomentum(args)` from advanced-scoring.ts. -/
noncomputable def detectMomentum (velocity1h velocity24h : ℚ) (volumeZScore : ℝ) : String :=
  if decide (0.02 < velocity1h) && decide (0.03 < velocity24h) && decide ((1 : ℝ) < volumeZScore) then
    "bullish"
  else if decide (velocity1h < -0.02) && decide (velocity24h < -0.03) && decide ((1 : ℝ) < volumeZScore) then
    "bearish"
  else if decide (0.05 < velocity24h) then "bullish"
  else if decide (velocity24h < -0.05) then "bearish"
  else "neutral"

/-- The rationale strings of the five signal rules, with their interpolated
numbers carried as values. -/
inductive SignalRationale
  | highDelayRisk (delayRisk : ℚ)
  | overpricedBy (edgeAbs : ℚ)
  | onlyDaysRemaining (days : ℚ)
  | proceduralDelays
  | strongMomentum (momentum : String)
  | priceMoved24h (velocity : ℚ)
  | volumeSpikeZ (z : ℝ)
  | lowAttention
  | significantEdge (edge : ℚ)
  | earlyEntryBeforeCrowd
  | volumeSpikeDetected
  | priceNotMovedYet
  | accumulationPhase
  | extremePriceMove (velocity : ℚ)
  | volumeExhaustion
  | reversionOpportunity

/-- `OpportunitySignal` from advanced-scoring.ts. -/
structure OpportunitySignal where
  type : String
  strength : ℝ
  direction : String
  confidence : ℝ
  rationale : List SignalRationale

/-- Input record of `generateSignals`. -/
structure GenArgs where
  edge : ℚ
  edgeDirection : String
  delayRisk : ℚ
  isByDate : Bool
  attentionScore : ℚ
  volumeZScore : ℝ
  isVolumeSpike : Bool
  momentum : String
  velocity24h : ℚ
  timeRemainingDays : Option ℚ
  liquidity : ℚ

/-- The JS condition `args.timeRemainingDays && args.timeRemainingDays < 30`
(`null` and `0` are falsy). -/
def hasSoonDeadline (td : Option ℚ) : Bool :=
  match td with
  | none => false
  | some d => if d = 0 then false else decide (d < 30)

/-- Signal rule 1 (deadline-overpriced) of `generateSignals`. -/
def deadlineOverpricedSignal (args : GenArgs) : List OpportunitySignal :=
  if args.isByDate && decide (0.5 < args.delayRisk) && decide (args.edge < -0.05) then
    [{ type := "deadline-overpriced"
       strength := ((min 1 (|args.edge| * 5) : ℚ) : ℝ)
       direction := "NO"
       confidence := ((0.7 + args.delayRisk * 0.2 : ℚ) : ℝ)
       rationale := [.highDelayRisk args.delayRisk, .overpricedBy |args.edge|,
         if hasSoonDeadline args.timeRemainingDays then
           .onlyDaysRemaining (args.timeRemainingDays.getD 0)
         else .proceduralDelays] }]
  else []

/-- Signal rule 2 (momentum-entry) of `generateSignals`. -/
noncomputable def momentumEntrySignal (args : GenArgs) : List OpportunitySignal :=
  if decide (args.momentum ≠ "neutral") && args.isVolumeSpike
      && decide (0.08 < |args.velocity24h|) then
    [{ type := "momentum-entry"
       strength := ((min 1 (|args.velocity24h| * 5) : ℚ) : ℝ)
       direction := if args.momentum = "bullish" then "YES" else "NO"
       confidence := 0.6 + args.volumeZScore * 0.1
       rationale := [.strongMomentum args.momentum, .priceMoved24h args.velocity24h,
         .volumeSpikeZ args.volumeZScore] }]
  else []

/-- Signal rule 3 (attention-arbitrage) of `generateSignals`. -/
def attentionArbitrageSignal (args : GenArgs) : List OpportunitySignal :=
  if decide (args.attentionScore < 0.3) && decide (0.08 < |args.edge|) then
    [{ type := "attention-arbitrage"
       strength := ((|args.edge| * 3 : ℚ) : ℝ)
       direction := args.edgeDirection
       confidence := 0.65
       rationale := [.lowAttention, .significantEdge args.edge, .earlyEntryBeforeCrowd] }]
  else []

/-- Signal rule 4 (volume-precursor) of `generateSignals`. -/
noncomputable def volumePrecursorSignal (args : GenArgs) : List OpportunitySignal :=
  if args.isVolumeSpike && decide (|args.velocity24h| < 0.03) then
    [{ type := "volume-precursor"
       strength := args.volumeZScore / 4
       direction := "WATCH"
       confidence := 0.5
       rationale := [.volumeSpikeDetected, .priceNotMovedYet, .accumulationPhase] }]
  else []

/-- Signal rule 5 (mean-reversion) of `generateSignals`. -/
noncomputable def meanReversionSignal (args : GenArgs) : List OpportunitySignal :=
  if decide (0.15 < |args.velocity24h|) && decide ((2.5 : ℝ) < args.volumeZScore) then
    [{ type := "mean-reversion"
       strength := ((min 1 (|args.velocity24h| * 3) : ℚ) : ℝ)
       direction := if 0 < args.velocity24h then "NO" else "YES"
       confidence := 0.55
       rationale := [.extremePriceMove args.velocity24h, .volumeExhaustion,
         .reversionOpportunity] }]
  else []

/-- The sort key `strength × confidence` of the final
`signals.sort((a,b) => b.strength*b.confidence - a.strength*a.confidence)`. -/
noncomputable def signalKey (s : OpportunitySignal) : ℝ := s.strength * s.confidence

/-- The final stable sort of `generateSignals`: the JS comparator
`b.strength*b.confidence - a.strength*a.confidence` orders by
nonincreasing `signalKey`. -/
noncomputable def sortSignals (l : List OpportunitySignal) : List OpportunitySignal :=
  l.mergeSort fun a b => decide (signalKey b ≤ signalKey a)

/-- `generateSignals(args)` from advanced-scoring.ts: the five rules in
source order, then the descending sort. -/
noncomputable def generateSignals (args : GenArgs) : List OpportunitySignal :=
  sortSignals (deadlineOverpricedSignal args ++ momentumEntrySignal args
    ++ attentionArbitrageSignal args ++ volumePrecursorSignal args
    ++ meanReversionSignal args)

/-- Input record of `calculateCompositeScore`. -/
structure CompArgs where
  edge : ℚ
  delayRisk : ℚ
  attentionScore : ℚ
  volumeZScore : ℝ
  liquidityScore : ℚ
  momentum : String
  signals : List OpportunitySignal

/-- `calculateCompositeScore(args)` from advanced-scoring.ts. -/
noncomputable def calculateCompositeScore (args : CompArgs) : ℝ :=
  let score1 : ℝ := 50 + (|args.edge| : ℝ) * 100 * 0.3
  let score2 :=
    if 0 < args.signals.length then
      score1 + ((args.signals.map fun s => s.strength * s.confidence).sum
        / args.signals.length) * 25
    else score1
  let score3 := score2 + (args.liquidityScore : ℝ) * 10
  let score4 := score3 + min 10 (args.volumeZScore * 3)
  let score5 := if args.momentum ≠ "neutral" then score4 + 5 else score4
  let score6 := if (args.attentionScore : ℚ) < 0.2 then score5 - 5 else score5
  max 0 (min 100 score6)

/-- `scoreTier(score)` from advanced-scoring.ts. -/
noncomputable def scoreTier (score : ℝ) : String :=
  if 80 ≤ score then "S"
  else if 65 ≤ score then "A"
  else if 50 ≤ score then "B"
  else if 35 ≤ score then "C"
  else "D"

/-- `suggestSize(kelly, tier, liquidity)` from advanced-scoring.ts. -/
def suggestSize (kelly : ℚ) (tier : String) (liquidity : ℚ) : String :=
  if decide (kelly < 0.02) || decide (tier = "D") then "skip"
  else if decide (liquidity < 5000) then "small"
  else if decide (0.15 ≤ kelly) && (decide (tier = "S") || decide (tier = "A")) then "large"
  else if decide (0.08 ≤ kelly) && decide (tier ≠ "D") then "medium"
  else "small"

/-! ## deadline.ts : by-date market detection

The regex tests of `looksLikeByDateMarket` are embedded as explicit scanners
over the character list; `\d{1,2}` is greedy with one-character backtracking,
exactly as the regex engine treats it. -/

/-- Regex piece `\d{1,2}` followed by continuation `k` (greedy, backtracking
to one digit when the continuation fails after two). -/
def digits1or2Then (k : List Char → Bool) : List Char → Bool
  | [] => false
  | c1 :: rest1 =>
    c1.isDigit &&
      (match rest1 with
       | [] => k []
       | c2 :: rest2 => (c2.isDigit && k rest2) || k rest1)

/-- `/ by \d{4}/.test(text)`. -/
def testByYear (cs : List Char) : Bool :=
  cs.tails.any fun t =>
    " by ".toList.isPrefixOf t &&
      (let r := t.drop 4
       decide (4 ≤ r.length) && (r.take 4).all Char.isDigit)

/-- `/ before \d{1,2}\/\d{1,2}/.test(text)`. -/
def testBeforeSlashDate (cs : List Char) : Bool :=
  cs.tails.any fun t =>
    " before ".toList.isPrefixOf t &&
      digits1or2Then
        (fun r =>
          match r with
          | '/' :: r2 => digits1or2Then (fun _ => true) r2
          | _ => false)
        (t.drop 8)

/-- `/ by [a-z]+ \d{1,2}/.test(text)`. -/
def testByMonthDay (cs : List Char) : Bool :=
  cs.tails.any fun t =>
    " by ".toList.isPrefixOf t &&
      (let r := t.drop 4
       let letters := r.takeWhile fun c => decide ('a' ≤ c) && decide (c ≤ 'z')
       decide (0 < letters.length) &&
         (match r.drop letters.length with
          | ' ' :: r2 => digits1or2Then (fun _ => true) r2
          | _ => false))

/-- `/\d{4}$/.test(text)`: the text ends in four digits. -/
def testEndsYear (cs : List Char) : Bool :=
  decide (4 ≤ cs.length) && (cs.drop (cs.length - 4)).all Char.isDigit

/-- `looksLikeByDateMarket(title, rules?, description?)` from deadline.ts:
`patterns.some(p => p.test(text))` over the lowercased concatenation. -/
def looksLikeByDateMarket (title : String) (rules description : Option String) : Bool :=
  let text := toLowerCase (title ++ " " ++ rules.getD "" ++ " " ++ description.getD "")
  let cs := text.toList
  strIncludes text " by " || strIncludes text " before "
    || strIncludes text " by end of " || strIncludes text " this year"
    || strIncludes text " this month" || strIncludes text " this week"
    || testByYear cs || testBeforeSlashDate cs || testByMonthDay cs
    || strIncludes text "deadline" || testEndsYear cs

/-! ## advanced-scoring.ts : full market scoring -/

/-- One price snapshot, as consumed by `scoreMarketAdvanced`. -/
structure Snapshot where
  capturedAt : ℚ
  yesPrice : Option ℚ
  noPrice : Option ℚ
  volume24h : Option ℚ
  liquidity : Option ℚ
  priceChange1h : Option ℚ
  priceChange24h : Option ℚ

/-- Input record of `scoreMarketAdvanced`. -/
structure MarketArgs where
  id : String
  title : String
  description : Option String
  rules : Option String
  category : Option String
  endDate : Option ℚ
  snapshots : List Snapshot

/-- `AdvancedScore` from advanced-scoring.ts. -/
structure AdvancedScore where
  id : String
  title : String
  category : Option String
  currentYesPrice : ℚ
  currentNoPrice : ℚ
  modelProb : ℚ
  edge : ℚ
  edgeDirection : String
  delayRisk : ℚ
  volatility : ℝ
  liquidityScore : ℚ
  timeRemainingDays : Option ℚ
  urgency : String
  attentionScore : ℚ
  volumeZScore : ℝ
  isVolumeSpike : Bool
  priceVelocity1h : ℚ
  priceVelocity24h : ℚ
  momentum : String
  signals : List OpportunitySignal
  primarySignal : Option OpportunitySignal
  kellyFraction : ℚ
  suggestedSize : String
  compositeScore : ℝ
  tier : String

/-- `scoreMarketAdvanced(args)` from advanced-scoring.ts. -/
noncomputable def scoreMarketAdvanced (now : ℚ) (args : MarketArgs) : Option AdvancedScore :=
  match args.snapshots with
  | [] => none
  | latest :: _ =>
    let currentYesPrice := latest.yesPrice.getD 0.5
    let currentNoPrice := latest.noPrice.getD (1 - currentYesPrice)
    if currentYesPrice ≤ 0 || 1 ≤ currentYesPrice then none
    else
      let isByDate := looksLikeByDateMarket args.title args.rules args.description
      let delayOutput := deadlineDelayModel now
        { marketProb := currentYesPrice, endDate := args.endDate,
          liquidity := latest.liquidity, category := args.category }
      let edge := delayOutput.modelProb - currentYesPrice
      let edgeDirection := if 0 ≤ edge then "YES" else "NO"
      let timeRemaining := timeRemainingDays now args.endDate
      let urgency := deadlineUrgency timeRemaining
      let volumeHistory := (((args.snapshots.drop 1).take 19).map
        fun s => s.volume24h.getD 0).filter fun v => decide (0 < v)
      let volumeAnalysis := volumeSpikeScore ⟨latest.volume24h, volumeHistory⟩
      let attention := attentionScore latest.volume24h latest.priceChange24h latest.liquidity
      let liq := latest.liquidity.getD 0
      let liquidityScore := min 1 (liq / 50000)
      let velocity1h := latest.priceChange1h.getD 0
      let velocity24h := latest.priceChange24h.getD 0
      let prices := ((args.snapshots.take 20).map fun s => s.yesPrice.getD 0).filter
        fun p => decide (0 < p)
      let avgPrice : ℚ :=
        if 0 < prices.length then prices.sum / (prices.length : ℚ) else currentYesPrice
      let variance : ℚ :=
        if 1 < prices.length then
          (prices.map fun p => (p - avgPrice) ^ 2).sum / (prices.length : ℚ)
        else 0
      let volatility := Real.sqrt (variance : ℝ)
      let momentum := detectMomentum velocity1h velocity24h volumeAnalysis.volumeZScore
      let signals := generateSignals
        { edge := edge, edgeDirection := edgeDirection, delayRisk := delayOutput.delayRisk,
          isByDate := isByDate, attentionScore := attention,
          volumeZScore := volumeAnalysis.volumeZScore,
          isVolumeSpike := volumeAnalysis.isSpike, momentum := momentum,
          velocity24h := velocity24h, timeRemainingDays := timeRemaining, liquidity := liq }
      let kelly := calculateKelly ⟨delayOutput.modelProb, currentYesPrice, edgeDirection⟩
      let compositeScore := calculateCompositeScore
        { edge := edge, delayRisk := delayOutput.delayRisk, attentionScore := attention,
          volumeZScore := volumeAnalysis.volumeZScore, liquidityScore := liquidityScore,
          momentum := momentum, signals := signals }
      let tier := scoreTier compositeScore
      let suggestedSizeValue := suggestSize kelly tier liq
      some { id := args.id, title := args.title, category := args.category,
             currentYesPrice := currentYesPrice, currentNoPrice := currentNoPrice,
             modelProb := delayOutput.modelProb, edge := edge,
             edgeDirection := edgeDirection, delayRisk := delayOutput.delayRisk,
             volatility := volatility, liquidityScore := liquidityScore,
             timeRemainingDays := timeRemaining, urgency := urgency,
             attentionScore := attention, volumeZScore := volumeAnalysis.volumeZScore,
             isVolumeSpike := volumeAnalysis.isSpike, priceVelocity1h := velocity1h,
             priceVelocity24h := velocity24h, momentum := momentum, signals := signals,
             primarySignal := signals.head?, kellyFraction := kelly,
             suggestedSize := suggestedSizeValue, compositeScore := compositeScore,
             tier := tier }


/-! ## deadline.ts : extractDeadline

`extractDeadline` scans title+rules with five regex patterns and hands the
matched text to the JavaScript `Date` constructor.  The regexes are embedded
as leftmost-match scanners returning `(match[0], match[1] || match[0])`;
`new Date(string)` belongs to the JavaScript runtime and is modelled below. -/

/-- A JavaScript `Date` value: a millisecond timestamp, or the Invalid Date
that `new Date` yields on unparseable input. -/
inductive JSDate
  | valid (ms : ℤ)
  | invalid
deriving DecidableEq

/-- JS `\w` word characters `[A-Za-z0-9_]`. -/
def isWordChar (c : Char) : Bool :=
  (decide ('a' ≤ c) && decide (c ≤ 'z')) || (decide ('A' ≤ c) && decide (c ≤ 'Z'))
    || c.isDigit || decide (c = '_')

/-- Consume a literal case-insensitively (`lit` given in lowercase),
returning the rest of the input. -/
def eatLitCI (lit s : List Char) : Option (List Char) :=
  match lit, s with
  | [], rest => some rest
  | l :: ls, c :: cs => if c.toLower = l then eatLitCI ls cs else none
  | _ :: _, [] => none

/-- Regex piece `\d{4}`: four digits (anything may follow), returning the
four matched characters. -/
def year4 : List Char → Option (List Char)
  | y1 :: y2 :: y3 :: y4 :: _ =>
    if y1.isDigit && y2.isDigit && y3.isDigit && y4.isDigit then some [y1, y2, y3, y4]
    else none
  | _ => none

/-- Regex piece `, \d{4}`. -/
def commaYear (s : List Char) : Option (List Char) :=
  match s with
  | ',' :: ' ' :: rest => (year4 rest).map fun y => ',' :: ' ' :: y
  | _ => none

/-- Regex piece `\d{1,2}` followed by continuation `k`: greedy, backtracking
to one digit when the continuation fails after two; returns the matched
characters. -/
def digits1or2Cap (k : List Char → Option (List Char)) : List Char → Option (List Char)
  | [] => none
  | c1 :: rest1 =>
    if c1.isDigit then
      match rest1 with
      | c2 :: rest2 =>
        if c2.isDigit then
          match k rest2 with
          | some cap => some (c1 :: c2 :: cap)
          | none => (k rest1).map fun cap => c1 :: cap
        else (k rest1).map fun cap => c1 :: cap
      | [] => (k []).map fun cap => c1 :: cap
    else none

/-- Patterns 1 and 2, `/by (\w+ \d{1,2}, \d{4})/i` and
`/before (\w+ \d{1,2}, \d{4})/i`, at one position. -/
def matchNameDayYearAt (lit t : List Char) : Option (String × String) :=
  match eatLitCI lit t with
  | none => none
  | some r =>
    let w := r.takeWhile isWordChar
    if w.isEmpty then none
    else
      match r.drop w.length with
      | ' ' :: r2 =>
        match digits1or2Cap commaYear r2 with
        | some cap =>
          let captured := w ++ ' ' :: cap
          some (String.mk (t.take lit.length ++ captured), String.mk captured)
        | none => none
      | _ => none

/-- Pattern 3, `/(\d{1,2}\/\d{1,2}\/\d{4})/`, at one position. -/
def matchSlashDateAt (t : List Char) : Option (String × String) :=
  match digits1or2Cap (fun r =>
      match r with
      | '/' :: r2 =>
        (digits1or2Cap (fun r3 =>
            match r3 with
            | '/' :: r4 => (year4 r4).map fun y => '/' :: y
            | _ => none) r2).map fun c => '/' :: c
      | _ => none) t with
  | some cap => some (String.mk cap, String.mk cap)
  | none => none

/-- Pattern 4, `/by end of (\w+ \d{4})/i`, at one position. -/
def matchNameYearAt (t : List Char) : Option (String × String) :=
  match eatLitCI "by end of ".toList t with
  | none => none
  | some r =>
    let w := r.takeWhile isWordChar
    if w.isEmpty then none
    else
      match r.drop w.length with
      | ' ' :: r2 =>
        (year4 r2).map fun y =>
          (String.mk (t.take "by end of ".length ++ (w ++ ' ' :: y)),
            String.mk (w ++ ' ' :: y))
      | _ => none

/-- Pattern 5, `/this year/i`, at one position (no capture group, so
`match[1] || match[0]` is the matched text itself). -/
def matchThisYearAt (t : List Char) : Option (String × String) :=
  match eatLitCI "this year".toList t with
  | some _ => some (String.mk (t.take 9), String.mk (t.take 9))
  | none => none

/-- Leftmost regex match: the first position whose scanner succeeds. -/
def firstMatch (m : List Char → Option (String × String)) (cs : List Char) :
    Option (String × String) :=
  cs.tails.findSome? m

/-- The month names the modelled date parser recognizes. -/
def monthNames : List (String × ℤ) :=
  [("january", 1), ("february", 2), ("march", 3), ("april", 4), ("may", 5), ("june", 6),
   ("july", 7), ("august", 8), ("september", 9), ("october", 10), ("november", 11),
   ("december", 12)]

/-- Month number of a lowercased month word: a full name or its three-letter
abbreviation. -/
def monthNumber (w : String) : Option ℤ :=
  (monthNames.find? fun p =>
    decide (p.1 = w) || decide (String.mk (p.1.toList.take 3) = w)).map Prod.snd

/-- Days from 1970-01-01 of a civil date (standard era/year-of-era
computation; exact for the post-1970 dates the parser meets). -/
def daysFromCivil (y m d : ℤ) : ℤ :=
  let yr := if m ≤ 2 then y - 1 else y
  let era := yr / 400
  let yoe := yr - era * 400
  let mp := (m + 9) % 12
  let doy := (153 * mp + 2) / 5 + d - 1
  let doe := yoe * 365 + yoe / 4 - yoe / 100 + doy
  era * 146097 + doe - 719468

/-- Millisecond timestamp of a (UTC) calendar date. -/
def dateToMs (y m d : ℤ) : ℤ := daysFromCivil y m d * 86400000

/-- The number a digit string denotes. -/
def digitsToNat (cs : List Char) : ℕ :=
  cs.foldl (fun n c => n * 10 + (c.toNat - 48)) 0

/-- A calendar date from parsed fields; Invalid when out of range. -/
def mkJSDate (y m d : ℤ) : JSDate :=
  if 1 ≤ m ∧ m ≤ 12 ∧ 1 ≤ d ∧ d ≤ 31 then JSDate.valid (dateToMs y m d)
  else JSDate.invalid

/-- Modelled from the spec: the ECMAScript `new Date(string)` parser that
`extractDeadline` calls, which is part of the JavaScript runtime rather than
of the repository.  It recognizes the date shapes the spec names —
month-day-year ("March 31, 2026"), month-year ("March 2026") and slash dates
("3/31/2026") — and, per ECMAScript, yields an Invalid Date (never an
exception) on any other input. -/
def jsDateParse (s : String) : JSDate :=
  let cs := s.toList
  let w := cs.takeWhile Char.isAlpha
  if 0 < w.length then
    match monthNumber (toLowerCase (String.mk w)) with
    | none => JSDate.invalid
    | some m =>
      match cs.drop w.length with
      | ' ' :: r =>
        let ds := r.takeWhile Char.isDigit
        match r.drop ds.length with
        | ',' :: ' ' :: r2 =>
          let ys := r2.takeWhile Char.isDigit
          if (ds.length = 1 ∨ ds.length = 2) ∧ ys.length = 4 ∧ r2.drop ys.length = [] then
            mkJSDate (digitsToNat ys) m (digitsToNat ds)
          else JSDate.invalid
        | [] => if ds.length = 4 then mkJSDate (digitsToNat ds) m 1 else JSDate.invalid
        | _ => JSDate.invalid
      | _ => JSDate.invalid
  else
    let m1 := cs.takeWhile Char.isDigit
    match cs.drop m1.length with
    | '/' :: r =>
      let d1 := r.takeWhile Char.isDigit
      match r.drop d1.length with
      | '/' :: r2 =>
        let ys := r2.takeWhile Char.isDigit
        if 0 < m1.length ∧ m1.length ≤ 2 ∧ 0 < d1.length ∧ d1.length ≤ 2 ∧
            ys.length = 4 ∧ r2.drop ys.length = [] then
          mkJSDate (digitsToNat ys) (digitsToNat m1) (digitsToNat d1)
        else JSDate.invalid
      | _ => JSDate.invalid
    | _ => JSDate.invalid

/-- What the pattern loop does with a match: the literal `"this year"` check
on `match[0]`, then `new Date(match[1] || match[0])`; `new Date(year, 11, 31)`
is December 31 of the current year. -/
def applyPattern (nowYear : ℤ) (res : String × String) : JSDate :=
  if strIncludes res.1 "this year" then JSDate.valid (dateToMs nowYear 12 31)
  else jsDateParse res.2

/-- `extractDeadline(title, rules?, endDate?)` from deadline.ts; `nowYear` is
`new Date().getFullYear()`.  A supplied structured end date is returned
unchanged (a `Date` object is always truthy in JS, so this includes an
invalid one); otherwise the five patterns are tried in source order on
`title + " " + (rules ?? "")` and the first match is handed to the `Date`
constructor.  The `try/catch` of the source never skips a pattern, since
`new Date` yields an Invalid Date rather than throwing. -/
def extractDeadline (nowYear : ℤ) (title : String) (rules : Option String)
    (endDate : Option JSDate) : Option JSDate :=
  match endDate with
  | some d => some d
  | none =>
    let cs := (title ++ " " ++ rules.getD "").toList
    match firstMatch (matchNameDayYearAt "by ".toList) cs with
    | some r => some (applyPattern nowYear r)
    | none =>
      match firstMatch (matchNameDayYearAt "before ".toList) cs with
      | some r => some (applyPattern nowYear r)
      | none =>
        match firstMatch matchSlashDateAt cs with
        | some r => some (applyPattern nowYear r)
        | none =>
          match firstMatch matchNameYearAt cs with
          | some r => some (applyPattern nowYear r)
          | none =>
            match firstMatch matchThisYearAt cs with
            | some r => some (applyPattern nowYear r)
            | none => none


/-- A probe input for `generateSignals`: a market with edge 0.5 and attention
0, every other signal source quiet.  Reachable in the pipeline (e.g. a
thin, unnoticed market whose modelProb exceeds its price by 0.5). -/
def c9Args : GenArgs :=
  { edge := 0.5, edgeDirection := "YES", delayRisk := 0, isByDate := false,
    attentionScore := 0, volumeZScore := 0, isVolumeSpike := false,
    momentum := "neutral", velocity24h := 0, timeRemainingDays := none, liquidity := 0 }

/-! ## Helper lemmas -/

theorem clamp01_nonneg (n : ℚ) : 0 ≤ clamp01 n := le_max_left 0 _

theorem clamp01_le_one (n : ℚ) : clamp01 n ≤ 1 :=
  max_le (by norm_num) (min_le_left 1 n)

theorem clamp01_mono {a b : ℚ} (h : a ≤ b) : clamp01 a ≤ clamp01 b :=
  max_le_max le_rfl (min_le_min le_rfl h)

/-! ## Claims -/


/-- C2: for marketProb = 0.20, an end date 5 days out, liquidity = 2000 and
category "Politics", `deadlineDelayModel` accumulates
delayPenalty = 0.25 + 0.08 + 0.03 = 0.36 and returns delayRisk = 1 and
modelProb = 0, so the edge modelProb − marketProb is −0.20. -/
theorem c2_politics_example :
    timePenalty 5 = 0.25 ∧ liqPenalty 2000 = 0.08 ∧
      catPenalty (toLowerCase "Politics") = 0.03 ∧
      delayPenaltyOf 5 2000 (toLowerCase "Politics") = 0.36 ∧
      (deadlineDelayModel 0 ⟨0.20, some (5 * 86400000), some 2000, some "Politics"⟩).delayRisk
        = 1 ∧
      (deadlineDelayModel 0 ⟨0.20, some (5 * 86400000), some 2000, some "Politics"⟩).modelProb
        = 0 ∧
      (deadlineDelayModel 0 ⟨0.20, some (5 * 86400000), some 2000, some "Politics"⟩).modelProb
          - 0.20 = -(0.20 : ℚ) := by
  have hlow : toLowerCase "Politics" = "politics" := by decide
  have hc1 : strIncludes "politics" "crypto" = false := by decide
  have hc2 : strIncludes "politics" "protocol" = false := by decide
  have hc3 : strIncludes "politics" "regulation" = false := by decide
  have hc4 : strIncludes "politics" "legal" = false := by decide
  have hc5 : strIncludes "politics" "politics" = true := by decide
  have htime : timePenalty 5 = 0.25 := by
    unfold timePenalty; rw [if_pos (by norm_num : (5 : ℚ) < 7)]
  have hliq : liqPenalty 2000 = 0.08 := by
    unfold liqPenalty; rw [if_pos (by norm_num : (2000 : ℚ) < 5000)]
  have hcat : catPenalty "politics" = 0.03 := by
    unfold catPenalty
    rw [hc1, hc2, hc3, hc4, hc5]
    norm_num
  have hpen : delayPenaltyOf 5 2000 "politics" = 0.36 := by
    unfold delayPenaltyOf; rw [htime, hliq, hcat]; norm_num
  have hdays : daysOf 0 (5 * 86400000) = 5 := by
    unfold daysOf
    rw [if_pos (by norm_num : (0 : ℚ) < 5 * 86400000 - 0)]
    norm_num
  have hclamp02 : clamp01 0.20 = 0.20 := by
    unfold clamp01
    rw [min_eq_right (by norm_num : (0.20 : ℚ) ≤ 1),
      max_eq_right (by norm_num : (0 : ℚ) ≤ 0.20)]
  have hrisk : clamp01 (0.36 / 0.30) = 1 := by
    unfold clamp01
    rw [min_eq_left (by norm_num : (1 : ℚ) ≤ 0.36 / 0.30),
      max_eq_right (by norm_num : (0 : ℚ) ≤ 1)]
  have hprob : clamp01 (0.20 - 0.36) = 0 := by
    unfold clamp01
    rw [min_eq_right (by norm_num : (0.20 - 0.36 : ℚ) ≤ 1),
      max_eq_left (by norm_num : (0.20 - 0.36 : ℚ) ≤ 0)]
  have hdm :
      deadlineDelayModel 0 ⟨0.20, some (5 * 86400000), some 2000, some "Politics"⟩ =
        { modelProb := 0, delayRisk := 1,
          rationale := [timeRationale 5, liqRationale 2000] ++ catRationale "politics",
          confidence := timeConfidence 5 * liqConfFactor 2000 } := by
    simp only [deadlineDelayModel, timeRemainingDays, Option.map_some', Option.getD_some,
      hdays, hlow, hpen, hclamp02, hrisk, hprob]
  refine ⟨htime, hliq, by rw [hlow]; exact hcat, by rw [hlow]; exact hpen, ?_, ?_, ?_⟩
  · rw [hdm]
  · rw [hdm]
  · rw [hdm]; norm_num

/-- C3: `calculateKelly` always lands in [0, 0.25], and a market price of
exactly 0 or exactly 1 gives exactly 0 for either direction. -/
theorem c3_kelly_range_and_degenerate :
    ∀ (modelProb marketPrice : ℚ) (direction : String),
      (0 ≤ calculateKelly ⟨modelProb, marketPrice, direction⟩ ∧
        calculateKelly ⟨modelProb, marketPrice, direction⟩ ≤ 0.25) ∧
      ((marketPrice = 0 ∨ marketPrice = 1) →
        calculateKelly ⟨modelProb, marketPrice, direction⟩ = 0) := by
  intro modelProb marketPrice direction
  constructor
  · unfold calculateKelly
    dsimp only
    split_ifs <;> norm_num
  · intro hp
    unfold calculateKelly
    dsimp only
    rcases hp with rfl | rfl <;> by_cases hd : direction = "YES" <;>
      first
      | (simp only [if_pos hd]
         rw [if_pos (by simp only [Bool.or_eq_true, decide_eq_true_eq]; norm_num)])
      | (simp only [if_neg hd]
         rw [if_pos (by simp only [Bool.or_eq_true, decide_eq_true_eq]; norm_num)])

theorem timePenalty_anti {d1 d2 : ℚ} (h : d1 ≤ d2) : timePenalty d2 ≤ timePenalty d1 := by
  unfold timePenalty
  split_ifs <;> linarith

theorem delayPenaltyOf_anti {d1 d2 : ℚ} (lq : ℚ) (cat : String) (h : d1 ≤ d2) :
    delayPenaltyOf d2 lq cat ≤ delayPenaltyOf d1 lq cat := by
  unfold delayPenaltyOf
  have := timePenalty_anti h
  linarith

/-- C4: with marketProb, liquidity and category held fixed, an end date with
fewer remaining days never yields a smaller delayPenalty, never a larger
modelProb and never a smaller delayRisk. -/
theorem c4_delay_penalty_monotone :
    ∀ (now mp : ℚ) (liq : Option ℚ) (cat : Option String) (e1 e2 : ℚ),
      daysOf now e1 ≤ daysOf now e2 →
      delayPenaltyOf (daysOf now e2) (liq.getD 0) (toLowerCase (cat.getD "")) ≤
          delayPenaltyOf (daysOf now e1) (liq.getD 0) (toLowerCase (cat.getD "")) ∧
        (deadlineDelayModel now ⟨mp, some e1, liq, cat⟩).modelProb ≤
          (deadlineDelayModel now ⟨mp, some e2, liq, cat⟩).modelProb ∧
        (deadlineDelayModel now ⟨mp, some e2, liq, cat⟩).delayRisk ≤
          (deadlineDelayModel now ⟨mp, some e1, liq, cat⟩).delayRisk := by
  intro now mp liq cat e1 e2 h
  have hpen := delayPenaltyOf_anti (liq.getD 0) (toLowerCase (cat.getD "")) h
  refine ⟨hpen, ?_, ?_⟩
  · simp only [deadlineDelayModel, timeRemainingDays, Option.map_some']
    exact clamp01_mono (by linarith)
  · simp only [deadlineDelayModel, timeRemainingDays, Option.map_some']
    exact clamp01_mono ((div_le_div_iff_of_pos_right (by norm_num)).mpr hpen)

theorem c4_delay_penalty_monotone_witness :
    delayPenaltyOf (daysOf 0 864000000) ((some (2000 : ℚ)).getD 0)
        (toLowerCase ((some "Politics").getD "")) ≤
      delayPenaltyOf (daysOf 0 86400000) ((some (2000 : ℚ)).getD 0)
        (toLowerCase ((some "Politics").getD "")) ∧
      (deadlineDelayModel 0 ⟨0.20, some 86400000, some 2000, some "Politics"⟩).modelProb ≤
        (deadlineDelayModel 0 ⟨0.20, some 864000000, some 2000, some "Politics"⟩).modelProb ∧
      (deadlineDelayModel 0 ⟨0.20, some 864000000, some 2000, some "Politics"⟩).delayRisk ≤
        (deadlineDelayModel 0 ⟨0.20, some 86400000, some 2000, some "Politics"⟩).delayRisk :=
  c4_delay_penalty_monotone 0 0.20 (some 2000) (some "Politics") 86400000 864000000
    (by
      unfold daysOf
      rw [if_pos (by norm_num : (0 : ℚ) < 86400000 - 0),
        if_pos (by norm_num : (0 : ℚ) < 864000000 - 0)]
      norm_num)

/-- C5: for every marketProb in [0,1] and any end date, liquidity and
category, `deadlineDelayModel` returns modelProb in [0,1] and delayRisk in
[0,1]. -/
theorem c5_delay_model_clamp_invariant :
    ∀ (now : ℚ) (args : ModelArgs), 0 ≤ args.marketProb → args.marketProb ≤ 1 →
      0 ≤ (deadlineDelayModel now args).modelProb ∧
        (deadlineDelayModel now args).modelProb ≤ 1 ∧
        0 ≤ (deadlineDelayModel now args).delayRisk ∧
        (deadlineDelayModel now args).delayRisk ≤ 1 := by
  intro now args h0 h1
  obtain ⟨mp, ed, lq, cat⟩ := args
  cases ed with
  | none =>
    simp only [deadlineDelayModel, timeRemainingDays, Option.map_none']
    exact ⟨clamp01_nonneg _, clamp01_le_one _, le_rfl, by norm_num⟩
  | some e =>
    simp only [deadlineDelayModel, timeRemainingDays, Option.map_some']
    exact ⟨clamp01_nonneg _, clamp01_le_one _, clamp01_nonneg _, clamp01_le_one _⟩

theorem c5_delay_model_clamp_invariant_witness :
    0 ≤ (deadlineDelayModel 0 ⟨0.20, some (5 * 86400000), some 2000, some "Politics"⟩).modelProb ∧
      (deadlineDelayModel 0 ⟨0.20, some (5 * 86400000), some 2000, some "Politics"⟩).modelProb
        ≤ 1 ∧
      0 ≤ (deadlineDelayModel 0 ⟨0.20, some (5 * 86400000), some 2000, some "Politics"⟩).delayRisk ∧
      (deadlineDelayModel 0 ⟨0.20, some (5 * 86400000), some 2000, some "Politics"⟩).delayRisk
        ≤ 1 :=
  c5_delay_model_clamp_invariant 0 ⟨0.20, some (5 * 86400000), some 2000, some "Politics"⟩
    (by norm_num : (0 : ℚ) ≤ 0.20) (by norm_num : (0.20 : ℚ) ≤ 1)

/-- C6: `volumeSpikeScore` first filters history to strictly positive values;
with fewer than 3 remaining values, or a zero population standard deviation,
it returns z-score 0 and isSpike = false (it is total, never an error);
otherwise isSpike holds exactly when (current − mean) / stdDev > 2. -/
theorem c6_volume_spike_cases :
    ∀ (vol : Option ℚ) (hist : List ℚ),
      (((hist.filter fun v => decide (0 < v)).length < 3 ∨
          stdOf (hist.filter fun v => decide (0 < v)) = 0) →
        (volumeSpikeScore ⟨vol, hist⟩).volumeZScore = 0 ∧
          (volumeSpikeScore ⟨vol, hist⟩).isSpike = false) ∧
      (3 ≤ (hist.filter fun v => decide (0 < v)).length →
        stdOf (hist.filter fun v => decide (0 < v)) ≠ 0 →
        ((volumeSpikeScore ⟨vol, hist⟩).isSpike = true ↔
          2 < (((vol.getD 0 : ℚ) : ℝ) - ((meanOf (hist.filter fun v => decide (0 < v)) : ℚ) : ℝ))
            / stdOf (hist.filter fun v => decide (0 < v)))) := by
  intro vol hist
  unfold volumeSpikeScore
  dsimp only
  constructor
  · intro hcase
    split_ifs with h1 h2
    · exact ⟨rfl, rfl⟩
    · exact ⟨rfl, rfl⟩
    · rcases hcase with hlen | hstd
      · exact absurd hlen h1
      · exact absurd hstd h2
  · intro hlen hstd
    split_ifs with h1
    · exact absurd h1 (by omega)
    · dsimp only
      rw [decide_eq_true_eq]
      norm_num

/-- C1: `scoreMarketAdvanced` returns null exactly when the snapshot list is
empty or the current yes-price read off the newest snapshot (defaulting to
0.5) is ≤ 0 or ≥ 1; in every other case it returns a non-null score. -/
theorem c1_score_null_iff :
    ∀ (now : ℚ) (args : MarketArgs),
      scoreMarketAdvanced now args = none ↔
        args.snapshots = [] ∨
          ∃ latest rest, args.snapshots = latest :: rest ∧
            (latest.yesPrice.getD 0.5 ≤ 0 ∨ 1 ≤ latest.yesPrice.getD 0.5) := by
  intro now args
  obtain ⟨i, t, de, ru, ca, ed, snaps⟩ := args
  cases snaps with
  | nil => simp [scoreMarketAdvanced]
  | cons latest rest =>
    simp only [scoreMarketAdvanced]
    by_cases hc : latest.yesPrice.getD 0.5 ≤ 0 ∨ 1 ≤ latest.yesPrice.getD 0.5
    · rw [if_pos (by simpa only [Bool.or_eq_true, decide_eq_true_eq] using hc)]
      exact iff_of_true rfl (Or.inr ⟨latest, rest, rfl, hc⟩)
    · rw [if_neg (by simpa only [Bool.or_eq_true, decide_eq_true_eq] using hc)]
      refine iff_of_false (by simp) ?_
      rintro (habs | ⟨l, r, heq, hp⟩)
      · exact List.cons_ne_nil _ _ habs
      · injection heq with heq1 heq2
        subst heq1
        exact hc hp

/-- C10: when the newest snapshot's yes-price is absent, `scoreMarketAdvanced`
substitutes 0.5 (and 1 − yes-price for an absent no-price) and still produces
a non-null AdvancedScore, so the null rejection only concerns explicitly
quoted prices ≤ 0 or ≥ 1. -/
theorem c10_missing_price_defaults :
    ∀ (now : ℚ) (args : MarketArgs) (latest : Snapshot) (rest : List Snapshot),
      args.snapshots = latest :: rest → latest.yesPrice = none →
      ∃ sc, scoreMarketAdvanced now args = some sc ∧
        sc.currentYesPrice = 0.5 ∧
        (latest.noPrice = none →
          sc.currentNoPrice = 1 - sc.currentYesPrice ∧ sc.currentNoPrice = 0.5) := by
  intro now args latest rest hsnap hyes
  obtain ⟨i, t, de, ru, ca, ed, snaps⟩ := args
  dsimp only at hsnap
  subst hsnap
  simp only [scoreMarketAdvanced, hyes, Option.getD_none]
  rw [if_neg (by
    simp only [Bool.or_eq_true, decide_eq_true_eq]
    rintro (h | h) <;> norm_num at h)]
  refine ⟨_, rfl, rfl, ?_⟩
  intro hno
  simp only [hno, Option.getD_none]
  norm_num

theorem c10_missing_price_defaults_witness :
    ∃ sc,
      scoreMarketAdvanced 0
          { id := "m", title := "t", description := none, rules := none,
            category := none, endDate := none,
            snapshots := [{ capturedAt := 0, yesPrice := none, noPrice := none,
                            volume24h := none, liquidity := none, priceChange1h := none,
                            priceChange24h := none }] } = some sc ∧
        sc.currentYesPrice = 0.5 ∧
        ((none : Option ℚ) = none →
          sc.currentNoPrice = 1 - sc.currentYesPrice ∧ sc.currentNoPrice = 0.5) :=
  c10_missing_price_defaults 0
    { id := "m", title := "t", description := none, rules := none,
      category := none, endDate := none,
      snapshots := [{ capturedAt := 0, yesPrice := none, noPrice := none,
                      volume24h := none, liquidity := none, priceChange1h := none,
                      priceChange24h := none }] }
    { capturedAt := 0, yesPrice := none, noPrice := none, volume24h := none,
      liquidity := none, priceChange1h := none, priceChange24h := none }
    [] rfl rfl

theorem sortSignals_sorted (l : List OpportunitySignal) :
    List.Sorted (fun a b : OpportunitySignal =>
      b.strength * b.confidence ≤ a.strength * a.confidence) (sortSignals l) := by
  have htrans : ∀ a b c : OpportunitySignal,
      decide (signalKey b ≤ signalKey a) = true →
      decide (signalKey c ≤ signalKey b) = true →
      decide (signalKey c ≤ signalKey a) = true := by
    intro a b c hab hbc
    simp only [decide_eq_true_eq] at hab hbc ⊢
    exact hbc.trans hab
  have htotal : ∀ a b : OpportunitySignal,
      (decide (signalKey b ≤ signalKey a) || decide (signalKey a ≤ signalKey b)) = true := by
    intro a b
    simp only [Bool.or_eq_true, decide_eq_true_eq]
    exact le_total (signalKey b) (signalKey a)
  have h := List.sorted_mergeSort htrans htotal l
  unfold sortSignals
  exact List.Pairwise.imp
    (by intro a b hab; simpa only [signalKey, decide_eq_true_eq] using hab) h

/-- C7: the list `generateSignals` returns is sorted by descending
strength × confidence, and in `scoreMarketAdvanced` the primarySignal field is
the first element of that sorted list when it is non-empty and null when it
is empty. -/
theorem c7_signals_sorted_primary_head :
    (∀ args : GenArgs,
      List.Sorted (fun a b : OpportunitySignal =>
        b.strength * b.confidence ≤ a.strength * a.confidence) (generateSignals args)) ∧
    (∀ (now : ℚ) (args : MarketArgs) (sc : AdvancedScore),
      scoreMarketAdvanced now args = some sc →
        sc.primarySignal = sc.signals.head? ∧
        List.Sorted (fun a b : OpportunitySignal =>
          b.strength * b.confidence ≤ a.strength * a.confidence) sc.signals) := by
  constructor
  · intro args
    exact sortSignals_sorted _
  · intro now args sc h
    obtain ⟨i, t, de, ru, ca, ed, snaps⟩ := args
    cases snaps with
    | nil => simp [scoreMarketAdvanced] at h
    | cons latest rest =>
      simp only [scoreMarketAdvanced] at h
      split at h
      · exact absurd h (by simp)
      · obtain rfl := Option.some.inj h
        exact ⟨rfl, sortSignals_sorted _⟩

theorem sortSignals_singleton (s : OpportunitySignal) : sortSignals [s] = [s] := by
  unfold sortSignals
  simp [List.mergeSort]

/-- C9 (code-bug evidence): at the reachable input `c9Args`,
`generateSignals` emits an attention-arbitrage signal whose strength is
|edge| × 3 = 1.5, outside the [0,1] range that the `OpportunitySignal` type
comment and the spec promise. -/
theorem c9_attention_strength_exceeds_one :
    (generateSignals c9Args).map OpportunitySignal.strength = [((1.5 : ℚ) : ℝ)] ∧
      (1 : ℝ) < ((1.5 : ℚ) : ℝ) := by
  have habs : |(0.5 : ℚ)| = 0.5 := abs_of_pos (by norm_num)
  have h1 : deadlineOverpricedSignal c9Args = [] := by
    simp [deadlineOverpricedSignal, c9Args]
  have h2 : momentumEntrySignal c9Args = [] := by
    simp [momentumEntrySignal, c9Args]
  have h3 : attentionArbitrageSignal c9Args =
      [{ type := "attention-arbitrage", strength := ((|(0.5 : ℚ)| * 3 : ℚ) : ℝ),
         direction := "YES", confidence := 0.65,
         rationale := [.lowAttention, .significantEdge 0.5, .earlyEntryBeforeCrowd] }] := by
    simp only [attentionArbitrageSignal, c9Args]
    rw [decide_eq_true (by norm_num : (0 : ℚ) < 0.3),
      decide_eq_true (by rw [habs]; norm_num : (0.08 : ℚ) < |(0.5 : ℚ)|)]
    simp
  have h4 : volumePrecursorSignal c9Args = [] := by
    simp [volumePrecursorSignal, c9Args]
  have h5 : meanReversionSignal c9Args = [] := by
    simp only [meanReversionSignal, c9Args]
    rw [decide_eq_false (by rw [abs_zero]; norm_num : ¬ ((0.15 : ℚ) < |(0 : ℚ)|))]
    simp
  constructor
  · unfold generateSignals
    rw [h1, h2, h3, h4, h5]
    simp only [List.nil_append, List.append_nil]
    rw [sortSignals_singleton]
    simp only [List.map_cons, List.map_nil]
    rw [habs]
    norm_num
  · norm_num

/-- C8 (code-bug evidence): on a title whose first pattern match is not a
parseable date, `extractDeadline` returns an Invalid Date object rather than
the null the spec promises: `new Date("qqqq 13, 2026")` yields an Invalid
Date and never throws, so the source's catch-and-continue never skips to the
next pattern or to the null fallthrough. -/
theorem c8_invalid_date_instead_of_null :
    extractDeadline 2026 "Will the act pass by qqqq 13, 2026" none none
        = some JSDate.invalid ∧
      some JSDate.invalid ≠ (none : Option JSDate) := by
  constructor
  · decide
  · exact fun h => Option.noConfusion h
